import Mathlib

/-
  Verification development for the ai-trading-agent-indian-market repository.

  Shallow embedding of the core components into Lean 4:
  - src/vwap_calculator.py        (VWAP computation, signal detection, sizing)
  - src/core/risk_manager.py      (risk-based position sizing)
  - src/core/llm_manager.py       (agent loop with tool calling)
  - src/core/trading_engine.py    (per-account cycle orchestrator, market gate)
  - src/main.py                   (scheduler tick over active accounts)

  Prices and monetary quantities are embedded as rationals; Python int()
  truncation toward zero is modelled by pyInt.  Division by zero in the
  rational field is the usual Lean junk value 0; wherever the Python code
  can divide by zero we model the produced entry explicitly (see
  VWAPCalculator.calculate_vwap, where a None entry stands for the
  non-finite value numpy produces when the cumulative volume is zero).
-/

/-- Python int() applied to a float: truncation toward zero. -/
def pyInt (q : ℚ) : ℤ := if 0 ≤ q then ⌊q⌋ else ⌈q⌉

/-- Running prefix sums with accumulator, as produced by numpy cumsum. -/
def cumsumFrom (acc : ℚ) : List ℚ → List ℚ
  | [] => []
  | x :: xs => (acc + x) :: cumsumFrom (acc + x) xs

/-- numpy cumsum of a list of rationals. -/
def cumsum (l : List ℚ) : List ℚ := cumsumFrom 0 l

/-- Python list indexing with a possibly negative index, defaulting to 0
out of range (valid-range side conditions are carried by the theorems). -/
def pyGet (l : List ℚ) (i : ℤ) : ℚ :=
  if 0 ≤ i then l.getD i.toNat 0 else l.getD (l.length - (-i).toNat) 0

namespace VWAPCalculator

/-- Candle data dictionary of src/vwap_calculator.py: equal-length arrays
for timestamp, high, low, close, volume. -/
structure CandleData where
  timestamp : List Nat
  high : List ℚ
  low : List ℚ
  close : List ℚ
  volume : List ℚ
  deriving Repr

/-- Error type named by the specification for the zero-cumulative-volume
condition.  The source file src/vwap_calculator.py never raises it (no such
class exists anywhere in the repository); the Except codomain of
calculate_vwap makes that absence provable. -/
inductive VwapError
  | insufficientData
  deriving DecidableEq, Repr

/-- Embedding of VWAPCalculator.calculate_vwap (src/vwap_calculator.py
lines 9-35).  An entry is none exactly when the cumulative volume at that
index is zero: numpy then divides by zero and yields a non-finite value.
The function has no raising path, matching the source. -/
def calculate_vwap (d : CandleData) : Except VwapError (List (Option ℚ)) :=
  if d.timestamp.isEmpty then .ok []
  else
    let typical_price :=
      List.zipWith (fun s c => (s + c) / 3) (List.zipWith (· + ·) d.high d.low) d.close
    let cumulative_tpv := cumsum (List.zipWith (· * ·) typical_price d.volume)
    let cumulative_volume := cumsum d.volume
    .ok (List.zipWith (fun a b => if b = 0 then none else some (a / b))
          cumulative_tpv cumulative_volume)

/-- Signal labels returned by detect_vwap_breakout. -/
inductive VwapSignal
  | bullishBreakout
  | bearishBreakdown
  | bullishRetest
  | bearishRetest
  | neutral
  deriving DecidableEq, Repr

/-- Result dictionary of detect_vwap_breakout. -/
structure BreakoutResult where
  signal : VwapSignal
  price : ℚ
  vwap : ℚ
  distance_pct : ℚ
  deriving DecidableEq, Repr

/-- Embedding of VWAPCalculator.detect_vwap_breakout (src/vwap_calculator.py
lines 74-115).  closes stands for data close; the current index is a Python
index and may be negative (default -1 is the latest bar). -/
def detect_vwap_breakout (closes : List ℚ) (vwap : List ℚ)
    (current_idx : ℤ) : BreakoutResult :=
  if closes.isEmpty ∨ vwap.isEmpty then ⟨.neutral, 0, 0, 0⟩
  else
    let current_price := pyGet closes current_idx
    let current_vwap := pyGet vwap current_idx
    let distance_pct := (current_price - current_vwap) / current_vwap * 100
    let prev_close := if 0 < current_idx then pyGet closes (current_idx - 1) else current_price
    let prev_vwap := if 0 < current_idx then pyGet vwap (current_idx - 1) else current_vwap
    let signal : VwapSignal :=
      if prev_close < prev_vwap ∧ current_vwap < current_price then .bullishBreakout
      else if prev_vwap < prev_close ∧ current_price < current_vwap then .bearishBreakdown
      else if |distance_pct| < 3 / 10 then
        (if prev_vwap < prev_close then .bullishRetest else .bearishRetest)
      else .neutral
    ⟨signal, current_price, current_vwap, distance_pct⟩

/-- Embedding of VWAPCalculator.calculate_position_size
(src/vwap_calculator.py lines 117-139): returns 0 when the per-share risk
is zero, otherwise max 1 of the truncated risk quotient. -/
def calculate_position_size (account_value risk_pct entry_price stop_loss_price : ℚ) : ℤ :=
  let risk_amount := account_value * (risk_pct / 100)
  let risk_per_share := |entry_price - stop_loss_price|
  if risk_per_share = 0 then 0
  else max 1 (pyInt (risk_amount / risk_per_share))

end VWAPCalculator

namespace RiskManager

/-- Embedding of RiskManager.calculate_position_size
(src/core/risk_manager.py lines 65-115).  The stop argument is optional;
the Python truthiness test stop and stop greater than 0 selects the
risk-based branch only for a present positive stop.  A stop equal to the
entry (zero price difference) passes the desired quantity through, and an
absent or non-positive stop uses the default stop distance of 2 percent of
the entry price. -/
def calculate_position_size (capital risk_per_trade entry_price : ℚ)
    (desired_quantity : ℤ) (stop_loss_price : Option ℚ) : ℤ :=
  let risk_amount := capital * (risk_per_trade / 100)
  let calc0 : ℤ :=
    match stop_loss_price with
    | some s =>
      if 0 < s then
        let price_difference := |entry_price - s|
        if 0 < price_difference then
          min desired_quantity (pyInt (risk_amount / price_difference))
        else desired_quantity
      else
        min desired_quantity (pyInt (risk_amount / (entry_price * (2 / 100))))
    | none =>
      min desired_quantity (pyInt (risk_amount / (entry_price * (2 / 100))))
  let calc1 := max 1 calc0
  let calc2 := if capital < (calc1 : ℚ) * entry_price then pyInt (capital / entry_price) else calc1
  max 1 (min calc2 desired_quantity)

end RiskManager

namespace LLMManager

/-- One chat message exchanged with the reasoning service. -/
structure ChatMsg where
  role : String
  content : String
  deriving DecidableEq, Repr

/-- One tool call requested by the reasoning service: id, function name and
argument payload (kept abstract as a string). -/
structure ToolCallReq where
  id : String
  name : String
  args : String
  deriving DecidableEq, Repr

/-- Assistant message of a reasoning-service response: content plus the
list of requested tool calls. -/
structure LLMMessage where
  content : String
  tool_calls : List ToolCallReq
  deriving DecidableEq, Repr

/-- One reasoning-service response (choices zero message, usage tokens). -/
structure LLMResponse where
  message : LLMMessage
  total_tokens : Nat
  deriving DecidableEq, Repr

/-- One entry of tool_calls_made, the tool-call records accumulated for the
invocation audit trail.  isError marks the entries the source tags with
error True (handler exception). -/
structure ToolRecord where
  tool_name : String
  arguments : String
  result : String
  isError : Bool
  deriving DecidableEq, Repr

/-- Environment of one agent-loop run: the outcome of the initial
reasoning call and of the n-th follow-up call.  An error value models a
network failure or a non-success HTTP status. -/
structure LLMEnv where
  initial : Except String LLMResponse
  followUp : Nat → Except String LLMResponse

/-- The structured result text returned for an unregistered tool name
(src/core/llm_manager.py line 240). -/
def toolNotAvailable (name : String) : String := "Tool " ++ name ++ " not available"

/-- Execution of one requested tool call (src/core/llm_manager.py lines
216-265).  Returns the tool-call records appended to tool_calls_made and
the tool-result message appended to tool_results.  A known tool produces
exactly one record (success or captured exception); an unknown tool
produces no record, only the structured result message. -/
def execToolCall (tools : List String) (handler : String → String → Except String String)
    (tc : ToolCallReq) : List ToolRecord × ChatMsg :=
  if tc.name ∈ tools then
    match handler tc.name tc.args with
    | .ok r => ([⟨tc.name, tc.args, r, false⟩], ⟨"tool", r⟩)
    | .error e =>
      let m := "Error executing " ++ tc.name ++ ": " ++ e
      ([⟨tc.name, tc.args, m, true⟩], ⟨"tool", m⟩)
  else ([], ⟨"tool", toolNotAvailable tc.name⟩)

/-- Sequential execution of one batch of tool calls, in the order given:
accumulated records and the tool-result messages. -/
def execBatch (tools : List String) (handler : String → String → Except String String)
    (tcs : List ToolCallReq) : List ToolRecord × List ChatMsg :=
  (tcs.flatMap fun tc => (execToolCall tools handler tc).1,
   tcs.map fun tc => (execToolCall tools handler tc).2)

/-- The fresh system message rebuilt for every follow-up request
(src/core/llm_manager.py lines 271-274). -/
def followUpSystem : ChatMsg :=
  ⟨"system", "You are an expert AI trading assistant. Continue the conversation based on tool results."⟩

/-- The generic user message rebuilt for every follow-up request
(src/core/llm_manager.py lines 275-278); it replaces the original prompt. -/
def followUpUser : ChatMsg :=
  ⟨"user", "Please analyze the tool execution results and provide your final trading decision."⟩

/-- System message of the initial call (src/core/llm_manager.py lines 155-159). -/
def initialSystem : ChatMsg :=
  ⟨"system", "You are an expert AI trading assistant for Indian stock markets. Use the provided tools to make trading decisions based on market analysis."⟩

/-- Message batch of the initial reasoning call: system plus the enriched
user prompt (src/core/llm_manager.py lines 155-164). -/
def initialMessages (prompt : String) : List ChatMsg :=
  [initialSystem, ⟨"user", prompt⟩]

/-- Result of the while-loop of _process_tool_calls: final text, the
accumulated tool-call records, the number of follow-up reasoning calls
issued, and the message batch sent with each follow-up call. -/
structure LoopResult where
  final_response : String
  tool_calls : List ToolRecord
  followUps : Nat
  sentBatches : List (List ChatMsg)
  deriving Repr

/-- The while-loop of _process_tool_calls (src/core/llm_manager.py lines
198-305), with the remaining iteration budget as fuel (iteration counter
max_iterations minus fuel).  Each loop pass with pending tool calls
executes the batch sequentially, rebuilds a fresh follow-up message list
(generic system and user messages plus only the current batch of tool
results) and issues one follow-up reasoning call; a non-success follow-up
response ends the loop with an error text. -/
def processLoop (tools : List String) (handler : String → String → Except String String)
    (env : LLMEnv) : Nat → LLMResponse → List ToolRecord → Nat → List (List ChatMsg) → LoopResult
  | 0, _, recs, fu, bs => ⟨"", recs, fu, bs⟩
  | fuel + 1, cur, recs, fu, bs =>
    if cur.message.tool_calls.isEmpty then ⟨cur.message.content, recs, fu, bs⟩
    else
      let step := execBatch tools handler cur.message.tool_calls
      let batch := followUpSystem :: followUpUser :: step.2
      match env.followUp fu with
      | .ok resp =>
        processLoop tools handler env fuel resp (recs ++ step.1) (fu + 1) (bs ++ [batch])
      | .error t =>
        ⟨"Error in follow-up: " ++ t, recs ++ step.1, fu + 1, bs ++ [batch]⟩

/-- _process_tool_calls (src/core/llm_manager.py lines 187-310) applied to
the initial response with empty accumulators. -/
def processToolCalls (tools : List String) (handler : String → String → Except String String)
    (env : LLMEnv) (max_iterations : Nat) (initResp : LLMResponse) : LoopResult :=
  processLoop tools handler env max_iterations initResp [] 0 []

/-- Return value of get_decision_with_tools: response text, tool-call
records, token count, optional error, plus the recorded message batches
and counts used by the theorems.  initialCalled records whether the
initial reasoning call was attempted at all; initialBatch is the message
list sent with the initial call (system message plus the enriched user
prompt). -/
structure DecisionResult where
  response : String
  tool_calls : List ToolRecord
  tokens_used : Nat
  error : Option String
  initialBatch : List ChatMsg
  sentBatches : List (List ChatMsg)
  followUps : Nat
  initialCalled : Bool
  deriving Repr

/-- Embedding of get_decision_with_tools (src/core/llm_manager.py lines
80-145).  An unconfigured model raises before any reasoning call; a failed
initial call is caught by the outer handler and produces the error result
with empty tool-call records; otherwise the tool-call loop runs with the
given iteration budget (max_tool_calls, default 5). -/
def get_decision_with_tools (tools : List String)
    (handler : String → String → Except String String) (env : LLMEnv)
    (modelConfigured : Bool) (prompt : String) (max_tool_calls : Nat := 5) : DecisionResult :=
  if !modelConfigured then
    ⟨"Error: Model not configured", [], 0, some "Model not configured", [], [], 0, false⟩
  else
    match env.initial with
    | .error e => ⟨"Error: " ++ e, [], 0, some e, initialMessages prompt, [], 0, true⟩
    | .ok resp =>
      let p := processToolCalls tools handler env max_tool_calls resp
      ⟨p.final_response, p.tool_calls, resp.total_tokens, none, initialMessages prompt,
       p.sentBatches, p.followUps, true⟩

/-- Total number of reasoning-service calls issued by one run of
get_decision_with_tools: the initial call, when attempted, plus every
follow-up call of the loop. -/
def reasoningCalls (d : DecisionResult) : Nat :=
  (if d.initialCalled then 1 else 0) + d.followUps

end LLMManager

namespace TradingEngine

/-- External calls the cycle orchestrator can make, in the sense of the
specification: market-data fetches, broker-gateway calls, and
reasoning-service calls. -/
inductive ExtCall
  | marketData (symbol : String) (timeframe : String)
  | brokerPortfolio
  | brokerPositions
  | reasoning
  deriving DecidableEq, Repr

/-- Outcome label of one orchestrator run for one account. -/
inductive CycleStatus
  | skippedMarketClosed
  | skippedDailyLimit
  | completed
  deriving DecidableEq, Repr

/-- The account-record fields process_account reads and writes. -/
structure AccountRec where
  name : String
  invocation_count : Nat
  last_executed : Option Nat
  capital_allocation : ℚ
  is_active : Bool
  deriving DecidableEq, Repr

/-- Result of one orchestrator run: the updated account record, the trace
of external calls issued, and the outcome label. -/
structure CycleResult where
  account : AccountRec
  extCalls : List ExtCall
  status : CycleStatus
  deriving Repr

end TradingEngine

namespace Scheduler

open TradingEngine

/-- Outcome of one account inside a scheduler tick: either the cycle
result, or the exception text caught and logged by the per-account
try-except of src/main.py lines 100-105. -/
inductive AccountOutcome
  | processed (r : CycleResult)
  | caught (msg : String)
  deriving Repr

/-- Embedding of the per-account loop of TradingSystemManager._trading_loop
(src/main.py lines 100-105): each account is processed in order; an
exception raised while processing one account is caught, logged and the
loop continues with the next account.  The behaviour argument gives the
outcome of process_account for each account (an error value models a
raised exception). -/
def trading_cycle (behavior : AccountRec → Except String CycleResult) :
    List AccountRec → List AccountOutcome
  | [] => []
  | a :: rest =>
    (match behavior a with
     | .ok r => .processed r
     | .error e => .caught e) :: trading_cycle behavior rest

end Scheduler

section ListLemmas

/-- cumsumFrom preserves length. -/
theorem cumsumFrom_length (l : List ℚ) : ∀ acc : ℚ, (cumsumFrom acc l).length = l.length := by
  induction l with
  | nil => intro acc; rfl
  | cons x xs ih => intro acc; simp [cumsumFrom, ih]

/-- cumsum preserves length. -/
theorem cumsum_length (l : List ℚ) : (cumsum l).length = l.length :=
  cumsumFrom_length l 0

/-- Entry j of a running prefix sum is the accumulator plus the sum of the
first j plus one entries. -/
theorem cumsumFrom_getD (l : List ℚ) : ∀ (acc : ℚ) (j : Nat), j < l.length →
    (cumsumFrom acc l).getD j 0 = acc + ∑ k ∈ Finset.range (j + 1), l.getD k 0 := by
  induction l with
  | nil => intro acc j h; exact absurd h (by simp)
  | cons x xs ih =>
    intro acc j h
    cases j with
    | zero => simp [cumsumFrom, Finset.sum_range_one]
    | succ n =>
      have hn : n < xs.length := by simpa using h
      simp only [cumsumFrom, List.getD_cons_succ]
      rw [ih (acc + x) n hn]
      conv_rhs => rw [Finset.sum_range_succ']
      simp only [List.getD_cons_succ, List.getD_cons_zero]
      ring

/-- Entry j of a numpy cumsum is the sum of the first j plus one entries. -/
theorem cumsum_getD (l : List ℚ) (j : Nat) (h : j < l.length) :
    (cumsum l).getD j 0 = ∑ k ∈ Finset.range (j + 1), l.getD k 0 := by
  rw [cumsum, cumsumFrom_getD l 0 j h, zero_add]

/-- A Python index given as a natural number reads the same entry. -/
theorem pyGet_natCast (l : List ℚ) (i : Nat) : pyGet l (i : ℤ) = l.getD i 0 := by
  simp [pyGet]

/-- For a positive natural index, the Python index i minus 1 reads entry
i minus 1. -/
theorem pyGet_natCast_sub_one (l : List ℚ) (i : Nat) (h : 1 ≤ i) :
    pyGet l ((i : ℤ) - 1) = l.getD (i - 1) 0 := by
  have h0 : (0 : ℤ) ≤ (i : ℤ) - 1 := by omega
  simp only [pyGet, if_pos h0]
  congr 1
  omega

end ListLemmas

namespace LLMManager

/-- The loop issues at most one follow-up reasoning call per unit of
remaining iteration budget. -/
theorem processLoop_followUps_le (tools : List String)
    (handler : String → String → Except String String) (env : LLMEnv) :
    ∀ (fuel : Nat) (cur : LLMResponse) (recs : List ToolRecord) (fu : Nat)
      (bs : List (List ChatMsg)),
      (processLoop tools handler env fuel cur recs fu bs).followUps ≤ fu + fuel := by
  intro fuel
  induction fuel with
  | zero => intro cur recs fu bs; simp [processLoop]
  | succ n ih =>
    intro cur recs fu bs
    rw [processLoop]
    split
    · simp
    · cases h : env.followUp fu with
      | ok resp =>
        simp only [h]
        have := ih resp (recs ++ (execBatch tools handler cur.message.tool_calls).1) (fu + 1)
          (bs ++ [followUpSystem :: followUpUser :: (execBatch tools handler cur.message.tool_calls).2])
        omega
      | error t => simp only [h]; omega

/-- The follow-up counter never decreases along the loop. -/
theorem processLoop_followUps_ge (tools : List String)
    (handler : String → String → Except String String) (env : LLMEnv) :
    ∀ (fuel : Nat) (cur : LLMResponse) (recs : List ToolRecord) (fu : Nat)
      (bs : List (List ChatMsg)),
      fu ≤ (processLoop tools handler env fuel cur recs fu bs).followUps := by
  intro fuel
  induction fuel with
  | zero => intro cur recs fu bs; simp [processLoop]
  | succ n ih =>
    intro cur recs fu bs
    rw [processLoop]
    split
    · simp
    · cases h : env.followUp fu with
      | ok resp =>
        simp only [h]
        have := ih resp (recs ++ (execBatch tools handler cur.message.tool_calls).1) (fu + 1)
          (bs ++ [followUpSystem :: followUpUser :: (execBatch tools handler cur.message.tool_calls).2])
        omega
      | error t => simp only [h]; omega

/-- The loop only appends to the list of sent follow-up batches. -/
theorem processLoop_sentBatches_extend (tools : List String)
    (handler : String → String → Except String String) (env : LLMEnv) :
    ∀ (fuel : Nat) (cur : LLMResponse) (recs : List ToolRecord) (fu : Nat)
      (bs : List (List ChatMsg)),
      ∃ rest, (processLoop tools handler env fuel cur recs fu bs).sentBatches = bs ++ rest := by
  intro fuel
  induction fuel with
  | zero => intro cur recs fu bs; exact ⟨[], by simp [processLoop]⟩
  | succ n ih =>
    intro cur recs fu bs
    rw [processLoop]
    split
    · exact ⟨[], by simp⟩
    · cases h : env.followUp fu with
      | ok resp =>
        simp only [h]
        obtain ⟨rest, hrest⟩ := ih resp (recs ++ (execBatch tools handler cur.message.tool_calls).1) (fu + 1)
          (bs ++ [followUpSystem :: followUpUser :: (execBatch tools handler cur.message.tool_calls).2])
        exact ⟨(followUpSystem :: followUpUser :: (execBatch tools handler cur.message.tool_calls).2) :: rest,
          by simpa using hrest⟩
      | error t =>
        exact ⟨[followUpSystem :: followUpUser :: (execBatch tools handler cur.message.tool_calls).2],
          by simp [h]⟩

/-- The tool-result message produced for any requested tool call carries
the role tool. -/
theorem execToolCall_role (tools : List String)
    (handler : String → String → Except String String) (tc : ToolCallReq) :
    ((execToolCall tools handler tc).2).role = "tool" := by
  unfold execToolCall
  split
  · cases handler tc.name tc.args <;> rfl
  · rfl

/-- Every follow-up batch the loop sends consists of the fresh generic
system message, the fresh generic user message, and tool-result messages
only. -/
theorem processLoop_sentBatches_shape (tools : List String)
    (handler : String → String → Except String String) (env : LLMEnv) :
    ∀ (fuel : Nat) (cur : LLMResponse) (recs : List ToolRecord) (fu : Nat)
      (bs : List (List ChatMsg)),
      (∀ b ∈ bs, ∃ ts, b = followUpSystem :: followUpUser :: ts ∧ ∀ m ∈ ts, m.role = "tool") →
      ∀ b ∈ (processLoop tools handler env fuel cur recs fu bs).sentBatches,
        ∃ ts, b = followUpSystem :: followUpUser :: ts ∧ ∀ m ∈ ts, m.role = "tool" := by
  intro fuel
  induction fuel with
  | zero => intro cur recs fu bs hbs; simpa [processLoop] using hbs
  | succ n ih =>
    intro cur recs fu bs hbs
    have hnew : ∀ b ∈ bs ++ [followUpSystem :: followUpUser :: (execBatch tools handler cur.message.tool_calls).2],
        ∃ ts, b = followUpSystem :: followUpUser :: ts ∧ ∀ m ∈ ts, m.role = "tool" := by
      intro b hb
      rcases List.mem_append.mp hb with hb | hb
      · exact hbs b hb
      · refine ⟨(execBatch tools handler cur.message.tool_calls).2, by simpa using hb, ?_⟩
        intro m hm
        simp only [execBatch, List.mem_map] at hm
        obtain ⟨tc, _, rfl⟩ := hm
        exact execToolCall_role tools handler tc
    rw [processLoop]
    split
    · exact hbs
    · cases h : env.followUp fu with
      | ok resp => simpa only [h] using ih resp _ (fu + 1) _ hnew
      | error t => simpa only [h] using hnew

end LLMManager

namespace Scheduler

/-- One tick processes a concatenation of account lists piecewise. -/
theorem trading_cycle_append (behavior : TradingEngine.AccountRec → Except String TradingEngine.CycleResult)
    (l1 l2 : List TradingEngine.AccountRec) :
    trading_cycle behavior (l1 ++ l2) =
      trading_cycle behavior l1 ++ trading_cycle behavior l2 := by
  induction l1 with
  | nil => rfl
  | cons a rest ih => simp [trading_cycle, ih]

/-- One tick yields exactly one outcome per account. -/
theorem trading_cycle_length (behavior : TradingEngine.AccountRec → Except String TradingEngine.CycleResult)
    (l : List TradingEngine.AccountRec) :
    (trading_cycle behavior l).length = l.length := by
  induction l with
  | nil => rfl
  | cons a rest ih => simp [trading_cycle, ih]

end Scheduler

section SizingLemmas

/-- Core bound of the final clamping steps of
RiskManager.calculate_position_size: the result is at least 1, and as soon
as the capital covers at least one share at the entry price, the final
quantity times the entry price stays within the capital. -/
theorem final_step_bounds (capital entry_price : ℚ) (desired_quantity z : ℤ)
    (hE : 0 < entry_price) (hQ : 1 ≤ desired_quantity) :
    1 ≤ max 1 (min (if capital < ((max 1 z : ℤ) : ℚ) * entry_price then
          pyInt (capital / entry_price) else max 1 z) desired_quantity) ∧
    (entry_price ≤ capital →
      ((max 1 (min (if capital < ((max 1 z : ℤ) : ℚ) * entry_price then
          pyInt (capital / entry_price) else max 1 z) desired_quantity) : ℤ) : ℚ) *
        entry_price ≤ capital) := by
  refine ⟨le_max_left _ _, ?_⟩
  intro hc
  by_cases hlt : capital < ((max 1 z : ℤ) : ℚ) * entry_price
  · rw [if_pos hlt]
    have hdiv1 : (1 : ℚ) ≤ capital / entry_price := (one_le_div hE).mpr hc
    have hdiv0 : (0 : ℚ) ≤ capital / entry_price := by linarith
    have hp : pyInt (capital / entry_price) = ⌊capital / entry_price⌋ := by
      unfold pyInt; exact if_pos hdiv0
    rw [hp]
    have hfl1 : (1 : ℤ) ≤ ⌊capital / entry_price⌋ := by
      rw [Int.le_floor]; exact_mod_cast hdiv1
    have hminge : (1 : ℤ) ≤ min ⌊capital / entry_price⌋ desired_quantity := le_min hfl1 hQ
    rw [max_eq_right hminge]
    have hle : ((min ⌊capital / entry_price⌋ desired_quantity : ℤ) : ℚ) ≤ capital / entry_price := by
      calc ((min ⌊capital / entry_price⌋ desired_quantity : ℤ) : ℚ)
          ≤ ((⌊capital / entry_price⌋ : ℤ) : ℚ) := by exact_mod_cast min_le_left _ _
        _ ≤ capital / entry_price := Int.floor_le _
    calc ((min ⌊capital / entry_price⌋ desired_quantity : ℤ) : ℚ) * entry_price
        ≤ (capital / entry_price) * entry_price :=
          mul_le_mul_of_nonneg_right hle (le_of_lt hE)
      _ = capital := div_mul_cancel₀ _ (ne_of_gt hE)
  · rw [if_neg hlt]
    push_neg at hlt
    have hminge : (1 : ℤ) ≤ min (max 1 z) desired_quantity := le_min (le_max_left _ _) hQ
    rw [max_eq_right hminge]
    have hle : ((min (max 1 z) desired_quantity : ℤ) : ℚ) ≤ ((max 1 z : ℤ) : ℚ) := by
      exact_mod_cast min_le_left _ _
    calc ((min (max 1 z) desired_quantity : ℤ) : ℚ) * entry_price
        ≤ ((max 1 z : ℤ) : ℚ) * entry_price :=
          mul_le_mul_of_nonneg_right hle (le_of_lt hE)
      _ ≤ capital := hlt

end SizingLemmas

/-- Claim C9: inside one scheduler tick, an exception raised while
processing one account is caught by the per-account handler, so every
remaining account is still processed, each account yields exactly one
outcome, and the tick itself never propagates the exception. -/
theorem trading_cycle_isolates_failures
    (behavior : TradingEngine.AccountRec → Except String TradingEngine.CycleResult)
    (pre post : List TradingEngine.AccountRec) (a : TradingEngine.AccountRec) (e : String)
    (h : behavior a = .error e) :
    Scheduler.trading_cycle behavior (pre ++ a :: post) =
      Scheduler.trading_cycle behavior pre ++
        Scheduler.AccountOutcome.caught e :: Scheduler.trading_cycle behavior post ∧
    (Scheduler.trading_cycle behavior (pre ++ a :: post)).length =
      pre.length + 1 + post.length := by
  constructor
  · rw [Scheduler.trading_cycle_append]
    simp [Scheduler.trading_cycle, h]
  · rw [Scheduler.trading_cycle_length]
    simp
    omega

/-- Behaviour function for the C9 witness: the account named bad raises,
every other account completes with an empty cycle result. -/
def c9behavior : TradingEngine.AccountRec → Except String TradingEngine.CycleResult :=
  fun a => if a.name = "bad" then .error "boom" else .ok ⟨a, [], .completed⟩

/-- Accounts for the C9 witness. -/
def c9a : TradingEngine.AccountRec := ⟨"alpha", 0, none, 50000, true⟩

/-- Failing account for the C9 witness. -/
def c9bad : TradingEngine.AccountRec := ⟨"bad", 2, none, 60000, true⟩

/-- Trailing account for the C9 witness. -/
def c9b : TradingEngine.AccountRec := ⟨"beta", 1, none, 70000, true⟩

/-- Witness for claim C9: with a concrete failing middle account the tick
still yields one outcome per account and processes the trailing account. -/
theorem trading_cycle_isolates_failures_witness :
    c9behavior c9bad = .error "boom" ∧
    (Scheduler.trading_cycle c9behavior ([c9a] ++ c9bad :: [c9b]) =
      Scheduler.trading_cycle c9behavior [c9a] ++
        Scheduler.AccountOutcome.caught "boom" :: Scheduler.trading_cycle c9behavior [c9b] ∧
     (Scheduler.trading_cycle c9behavior ([c9a] ++ c9bad :: [c9b])).length =
      [c9a].length + 1 + [c9b].length) :=
  ⟨by simp [c9behavior, c9bad],
   trading_cycle_isolates_failures c9behavior [c9a] [c9b] c9bad "boom"
     (by simp [c9behavior, c9bad])⟩

open VWAPCalculator in
/-- Claim C10: invoked with a non-positive bar index (including the
default index -1 used for the latest bar), detect_vwap_breakout takes the
previous close and previous VWAP equal to the current values, so the
result is never BULLISH_BREAKOUT and never BEARISH_BREAKDOWN. -/
theorem detect_nonpositive_idx_no_breakout (closes vwap : List ℚ) (idx : ℤ)
    (h : idx ≤ 0) :
    (VWAPCalculator.detect_vwap_breakout closes vwap idx).signal ≠ .bullishBreakout ∧
    (VWAPCalculator.detect_vwap_breakout closes vwap idx).signal ≠ .bearishBreakdown := by
  have hno : ¬ (0 < idx) := by omega
  rw [VWAPCalculator.detect_vwap_breakout]
  split
  · simp
  · simp only [hno, if_false]
    constructor <;>
    · split_ifs with h1 h2 h3 <;> simp_all <;> linarith [h1.1, h1.2]

/-- Witness for claim C10 at the default latest-bar index -1. -/
theorem detect_nonpositive_idx_no_breakout_witness :
    ((-1 : ℤ) ≤ 0) ∧
    ((VWAPCalculator.detect_vwap_breakout [2] [1] (-1)).signal ≠ .bullishBreakout ∧
     (VWAPCalculator.detect_vwap_breakout [2] [1] (-1)).signal ≠ .bearishBreakdown) :=
  ⟨by norm_num, detect_nonpositive_idx_no_breakout [2] [1] (-1) (by norm_num)⟩

open LLMManager in
/-- Claim C2: for every sequence of reasoning-service responses, including
one in which every response requests a tool call, the agent loop of
get_decision_with_tools terminates (it is a total function of an explicit
iteration budget) and issues at most max_tool_calls plus 1 reasoning calls
in total: the initial call plus at most max_tool_calls follow-up calls
(default budget 5). -/
theorem agent_loop_reasoning_call_bound (tools : List String)
    (handler : String → String → Except String String) (env : LLMManager.LLMEnv)
    (modelConfigured : Bool) (prompt : String) (max_tool_calls : Nat) :
    LLMManager.reasoningCalls
        (LLMManager.get_decision_with_tools tools handler env modelConfigured prompt max_tool_calls) ≤
      max_tool_calls + 1 := by
  unfold LLMManager.get_decision_with_tools LLMManager.reasoningCalls
  split
  · simp
  · cases h : env.initial with
    | error e => simp [h]
    | ok resp =>
      simp only [h, LLMManager.processToolCalls]
      have := LLMManager.processLoop_followUps_le tools handler env max_tool_calls resp [] 0 []
      simp only [Nat.zero_add] at this
      simp
      omega

open LLMManager in
/-- Claim C6: when the initial reasoning call fails (network error or
non-success status), the whole invocation completes as a failure: the
result carries the error, has zero tool-call records, zero follow-up
reasoning calls and zero follow-up batches, so no tool handler is ever
executed (every handler execution appends a tool-call record) and no trade
can be placed. -/
theorem first_call_failure_no_tools (tools : List String)
    (handler : String → String → Except String String) (env : LLMManager.LLMEnv)
    (prompt : String) (max_tool_calls : Nat) (e : String)
    (h : env.initial = .error e) :
    (LLMManager.get_decision_with_tools tools handler env true prompt max_tool_calls).tool_calls = [] ∧
    (LLMManager.get_decision_with_tools tools handler env true prompt max_tool_calls).followUps = 0 ∧
    (LLMManager.get_decision_with_tools tools handler env true prompt max_tool_calls).sentBatches = [] ∧
    (LLMManager.get_decision_with_tools tools handler env true prompt max_tool_calls).error = some e := by
  simp [LLMManager.get_decision_with_tools, h]

/-- Environment for the C6 witness: the initial reasoning call fails. -/
def c6env : LLMManager.LLMEnv :=
  ⟨.error "service down", fun _ => .error "service down"⟩

/-- Witness for claim C6 at a concrete failing environment. -/
theorem first_call_failure_no_tools_witness :
    c6env.initial = .error "service down" ∧
    ((LLMManager.get_decision_with_tools ["buy_stock"] (fun _ _ => .ok "x") c6env true "P" 5).tool_calls = [] ∧
     (LLMManager.get_decision_with_tools ["buy_stock"] (fun _ _ => .ok "x") c6env true "P" 5).followUps = 0 ∧
     (LLMManager.get_decision_with_tools ["buy_stock"] (fun _ _ => .ok "x") c6env true "P" 5).sentBatches = [] ∧
     (LLMManager.get_decision_with_tools ["buy_stock"] (fun _ _ => .ok "x") c6env true "P" 5).error = some "service down") :=
  ⟨rfl, first_call_failure_no_tools ["buy_stock"] (fun _ _ => .ok "x") c6env "P" 5 "service down" rfl⟩

/-- Scenario for claims C7 and C8 side: initial response requesting one
registered tool, then a final answer. -/
def c7env : LLMManager.LLMEnv :=
  ⟨.ok ⟨⟨"", [⟨"call1", "get_portfolio_status", ""⟩]⟩, 10⟩,
   fun _ => .ok ⟨⟨"HOLD", []⟩, 5⟩⟩

/-- Registered tool names of the C7 scenario. -/
def c7tools : List String := ["get_portfolio_status"]

/-- Tool handlers of the C7 scenario: every execution succeeds. -/
def c7handler : String → String → Except String String := fun _ _ => .ok "PORTFOLIO_OK"

/-- Full run of the C7 scenario with the original prompt PROMPT. -/
def c7run : LLMManager.DecisionResult :=
  LLMManager.get_decision_with_tools c7tools c7handler c7env true "PROMPT" 5

open LLMManager in
/-- Counterexample to claim C7: in a run whose initial call carries the
original user prompt PROMPT and whose first iteration executes one tool,
the single follow-up batch consists only of a fresh generic system
message, a fresh generic user instruction and the current tool result; it
does not contain the original user prompt message, so the follow-up does
not resend the accumulated message history. -/
theorem followup_batch_counterexample :
    c7run.initialBatch = [LLMManager.initialSystem, ⟨"user", "PROMPT"⟩] ∧
    c7run.sentBatches =
      [[LLMManager.followUpSystem, LLMManager.followUpUser, ⟨"tool", "PORTFOLIO_OK"⟩]] ∧
    (LLMManager.ChatMsg.mk "user" "PROMPT") ∉ c7run.sentBatches.getD 0 [] ∧
    LLMManager.followUpSystem ≠ LLMManager.initialSystem := by
  refine ⟨rfl, rfl, ?_, ?_⟩ <;> decide

open LLMManager in
/-- Claim C7 as amended: every follow-up batch sent to the reasoning
service is rebuilt fresh, consisting of the generic follow-up system
message, the generic follow-up user instruction, and only the current
iteration's tool-result messages; neither the original user prompt nor the
tool results of earlier iterations are resent. -/
theorem followup_batches_fresh (tools : List String)
    (handler : String → String → Except String String) (env : LLMManager.LLMEnv)
    (modelConfigured : Bool) (prompt : String) (max_tool_calls : Nat) :
    ∀ b ∈ (LLMManager.get_decision_with_tools tools handler env modelConfigured prompt
            max_tool_calls).sentBatches,
      ∃ ts, b = LLMManager.followUpSystem :: LLMManager.followUpUser :: ts ∧
        ∀ m ∈ ts, m.role = "tool" := by
  unfold LLMManager.get_decision_with_tools
  split
  · simp
  · cases h : env.initial with
    | error e => simp [h]
    | ok resp =>
      simp only [h]
      exact LLMManager.processLoop_sentBatches_shape tools handler env max_tool_calls resp [] 0 []
        (by simp)

open LLMManager in
/-- Witness for the amended claim C7 at the concrete C7 scenario. -/
theorem followup_batches_fresh_witness :
    [LLMManager.followUpSystem, LLMManager.followUpUser,
      LLMManager.ChatMsg.mk "tool" "PORTFOLIO_OK"] ∈ c7run.sentBatches ∧
    (∃ ts, [LLMManager.followUpSystem, LLMManager.followUpUser,
        LLMManager.ChatMsg.mk "tool" "PORTFOLIO_OK"] =
        LLMManager.followUpSystem :: LLMManager.followUpUser :: ts ∧
      ∀ m ∈ ts, m.role = "tool") :=
  ⟨by decide,
   followup_batches_fresh c7tools c7handler c7env true "PROMPT" 5 _ (by decide)⟩

/-- Scenario for claim C8: the reasoning service requests a tool name that
is not registered, then returns a final answer. -/
def c8env : LLMManager.LLMEnv :=
  ⟨.ok ⟨⟨"", [⟨"call1", "transfer_funds", ""⟩]⟩, 10⟩,
   fun _ => .ok ⟨⟨"DONE", []⟩, 5⟩⟩

/-- Full run of the C8 scenario. -/
def c8run : LLMManager.DecisionResult :=
  LLMManager.get_decision_with_tools ["buy_stock"] (fun _ _ => .ok "x") c8env true "P8" 5

open LLMManager in
/-- Counterexample to claim C8: for an unknown tool name the invoker sends
the structured tool-not-available message back to the reasoning service
and the loop continues with a follow-up call to completion, but nothing at
all is appended to the invocation's tool-call records — in particular no
record with status FAILED exists. -/
theorem unknown_tool_counterexample :
    c8run.tool_calls = [] ∧
    c8run.followUps = 1 ∧
    c8run.sentBatches =
      [[LLMManager.followUpSystem, LLMManager.followUpUser,
        ⟨"tool", "Tool transfer_funds not available"⟩]] ∧
    c8run.response = "DONE" ∧
    c8run.error = none := by
  refine ⟨rfl, rfl, rfl, rfl, rfl⟩

open LLMManager in
/-- Claim C8 as amended: for a tool call whose action name is not
registered, the invoker produces the structured tool-not-available result
message and no tool-call record, the message is sent back in the follow-up
batch, and the loop continues with at least one follow-up reasoning call
rather than aborting. -/
theorem unknown_tool_behaviour (tools : List String)
    (handler : String → String → Except String String) (env : LLMManager.LLMEnv)
    (tc : LLMManager.ToolCallReq) (resp : LLMManager.LLMResponse) (max_tool_calls : Nat)
    (hname : tc.name ∉ tools) (hresp : resp.message.tool_calls = [tc])
    (hfuel : 1 ≤ max_tool_calls) :
    LLMManager.execToolCall tools handler tc =
      ([], ⟨"tool", LLMManager.toolNotAvailable tc.name⟩) ∧
    (LLMManager.processToolCalls tools handler env max_tool_calls resp).sentBatches.getD 0 [] =
      [LLMManager.followUpSystem, LLMManager.followUpUser,
        ⟨"tool", LLMManager.toolNotAvailable tc.name⟩] ∧
    1 ≤ (LLMManager.processToolCalls tools handler env max_tool_calls resp).followUps := by
  have hexec : LLMManager.execToolCall tools handler tc =
      ([], ⟨"tool", LLMManager.toolNotAvailable tc.name⟩) := by
    unfold LLMManager.execToolCall
    rw [if_neg hname]
  refine ⟨hexec, ?_, ?_⟩ <;>
  · obtain ⟨n, rfl⟩ : ∃ n, max_tool_calls = n + 1 := ⟨max_tool_calls - 1, by omega⟩
    rw [LLMManager.processToolCalls, LLMManager.processLoop]
    rw [if_neg (by simp [hresp])]
    have hbatch : LLMManager.execBatch tools handler resp.message.tool_calls =
        ([], [⟨"tool", LLMManager.toolNotAvailable tc.name⟩]) := by
      rw [hresp]
      simp [LLMManager.execBatch, hexec]
    cases h : env.followUp 0 with
    | ok resp2 =>
      simp only [h, hbatch, Nat.zero_add, List.nil_append, List.append_nil]
      first
      | · obtain ⟨rest, hrest⟩ :=
            LLMManager.processLoop_sentBatches_extend tools handler env n resp2 [] 1
              [[LLMManager.followUpSystem, LLMManager.followUpUser,
                LLMManager.ChatMsg.mk "tool" (LLMManager.toolNotAvailable tc.name)]]
          rw [hrest]
          simp
      | · have := LLMManager.processLoop_followUps_ge tools handler env n resp2 [] 1
            [[LLMManager.followUpSystem, LLMManager.followUpUser,
              LLMManager.ChatMsg.mk "tool" (LLMManager.toolNotAvailable tc.name)]]
          omega
    | error t =>
      simp [h, hbatch]

open LLMManager in
/-- Witness for the amended claim C8 at the concrete C8 scenario. -/
theorem unknown_tool_behaviour_witness :
    ("transfer_funds" ∉ ["buy_stock"]) ∧
    (LLMManager.execToolCall ["buy_stock"] (fun _ _ => .ok "x") ⟨"call1", "transfer_funds", ""⟩ =
      ([], ⟨"tool", LLMManager.toolNotAvailable "transfer_funds"⟩) ∧
    (LLMManager.processToolCalls ["buy_stock"] (fun _ _ => .ok "x") c8env 5
        ⟨⟨"", [⟨"call1", "transfer_funds", ""⟩]⟩, 10⟩).sentBatches.getD 0 [] =
      [LLMManager.followUpSystem, LLMManager.followUpUser,
        ⟨"tool", LLMManager.toolNotAvailable "transfer_funds"⟩] ∧
    1 ≤ (LLMManager.processToolCalls ["buy_stock"] (fun _ _ => .ok "x") c8env 5
        ⟨⟨"", [⟨"call1", "transfer_funds", ""⟩]⟩, 10⟩).followUps) :=
  ⟨by decide,
   unknown_tool_behaviour ["buy_stock"] (fun _ _ => .ok "x") c8env
     ⟨"call1", "transfer_funds", ""⟩ ⟨⟨"", [⟨"call1", "transfer_funds", ""⟩]⟩, 10⟩ 5
     (by decide) rfl (by decide)⟩

/-- Counterexample to claim C3.  First: with capital 50, risk 2 percent,
entry price 100, stop 90 and desired quantity 1, the risk-manager sizer
returns 1, and 1 times the entry price 100 exceeds the capital 50, so
final_qty times entry price is not bounded by the capital when the entry
price exceeds the capital.  Second: with entry equal to stop (zero
per-share risk) the vwap-calculator sizer returns 0, not a quantity of at
least 1 produced by a 2 percent fallback stop distance. -/
theorem position_size_counterexample :
    RiskManager.calculate_position_size 50 2 100 1 (some 90) = 1 ∧
    ¬ ((RiskManager.calculate_position_size 50 2 100 1 (some 90) : ℚ) * 100 ≤ 50) ∧
    VWAPCalculator.calculate_position_size 100000 2 100 100 = 0 := by
  have h1 : RiskManager.calculate_position_size 50 2 100 1 (some 90) = 1 := by
    norm_num [RiskManager.calculate_position_size, pyInt]
  refine ⟨h1, ?_, ?_⟩
  · rw [h1]; norm_num
  · norm_num [VWAPCalculator.calculate_position_size, pyInt, abs]

/-- Claim C3 as amended: for every capital, risk percentage, entry price
E greater than 0, desired quantity of at least 1 and optional stop price,
the risk-manager sizer returns a final quantity of at least 1, and
whenever the capital covers at least one share (E at most C) the final
quantity times E stays within the capital C.  The 2 percent default stop
distance is applied when the stop is absent or non-positive; a stop equal
to the entry passes the desired quantity through; and the bound
final_qty times E at most C can fail only when E exceeds C, where the
minimum-quantity clamp to 1 wins. -/
theorem position_size_bounds (capital risk_per_trade entry_price : ℚ)
    (desired_quantity : ℤ) (stop_loss_price : Option ℚ)
    (hE : 0 < entry_price) (hQ : 1 ≤ desired_quantity) :
    1 ≤ RiskManager.calculate_position_size capital risk_per_trade entry_price
          desired_quantity stop_loss_price ∧
    (entry_price ≤ capital →
      ((RiskManager.calculate_position_size capital risk_per_trade entry_price
          desired_quantity stop_loss_price : ℤ) : ℚ) * entry_price ≤ capital) := by
  simp only [RiskManager.calculate_position_size]
  exact final_step_bounds capital entry_price desired_quantity _ hE hQ

/-- Witness for the amended claim C3 at the concrete scenario of the
specification (capital 100000, risk 2 percent, entry 100, stop 98,
desired quantity 1000). -/
theorem position_size_bounds_witness :
    (0 : ℚ) < 100 ∧ (1 : ℤ) ≤ 1000 ∧
    (1 ≤ RiskManager.calculate_position_size 100000 2 100 1000 (some 98) ∧
     ((100 : ℚ) ≤ 100000 →
      ((RiskManager.calculate_position_size 100000 2 100 1000 (some 98) : ℤ) : ℚ) * 100 ≤ 100000)) :=
  ⟨by norm_num, by norm_num,
   position_size_bounds 100000 2 100 1000 (some 98) (by norm_num) (by norm_num)⟩

open VWAPCalculator in
/-- Signal component of detect_vwap_breakout on non-empty inputs, written
as one explicit conditional expression. -/
theorem detect_vwap_breakout_signal (closes vwap : List ℚ) (idx : ℤ)
    (hne : ¬ (closes.isEmpty ∨ vwap.isEmpty)) :
    (VWAPCalculator.detect_vwap_breakout closes vwap idx).signal =
      (if (if 0 < idx then pyGet closes (idx - 1) else pyGet closes idx) <
            (if 0 < idx then pyGet vwap (idx - 1) else pyGet vwap idx) ∧
          pyGet vwap idx < pyGet closes idx then VwapSignal.bullishBreakout
       else if (if 0 < idx then pyGet vwap (idx - 1) else pyGet vwap idx) <
            (if 0 < idx then pyGet closes (idx - 1) else pyGet closes idx) ∧
          pyGet closes idx < pyGet vwap idx then VwapSignal.bearishBreakdown
       else if |(pyGet closes idx - pyGet vwap idx) / pyGet vwap idx * 100| < 3 / 10 then
         (if (if 0 < idx then pyGet vwap (idx - 1) else pyGet vwap idx) <
             (if 0 < idx then pyGet closes (idx - 1) else pyGet closes idx) then
            VwapSignal.bullishRetest
          else VwapSignal.bearishRetest)
       else VwapSignal.neutral) := by
  rw [VWAPCalculator.detect_vwap_breakout, if_neg hne]

/-- Counterexample to claim C4: at index 0 with a single bar whose close
sits 0.1 percent above its VWAP, the previous values are taken equal to
the current ones and the code classifies the bar as BULLISH_RETEST, not
NEUTRAL as the claim states for index 0. -/
theorem detect_idx0_counterexample :
    (VWAPCalculator.detect_vwap_breakout [1001/1000] [1] 0).signal = .bullishRetest ∧
    (VWAPCalculator.detect_vwap_breakout [1001/1000] [1] 0).signal ≠ .neutral := by
  have h : (VWAPCalculator.detect_vwap_breakout [1001/1000] [1] 0).signal = .bullishRetest := by
    norm_num [VWAPCalculator.detect_vwap_breakout, pyGet, abs]
  exact ⟨h, by rw [h]; simp⟩

open VWAPCalculator in
/-- Claim C4 as amended: for indices i of at least 1, classification is
exactly as claimed (BULLISH_BREAKOUT iff the close crosses above the VWAP,
BEARISH_BREAKDOWN iff it crosses below, otherwise retest within the 0.3
percent tolerance band, otherwise NEUTRAL); at index 0 the previous values
are taken equal to the current ones, so no breakout or breakdown can fire,
but the result is a retest label whenever the distance is inside the
tolerance band (NEUTRAL only outside it), not always NEUTRAL. -/
theorem detect_vwap_breakout_classification (closes vwap : List ℚ) (i : Nat)
    (hc : i < closes.length) (hv : i < vwap.length) :
    (1 ≤ i →
      (((VWAPCalculator.detect_vwap_breakout closes vwap (i : ℤ)).signal = .bullishBreakout ↔
         (closes.getD (i-1) 0 < vwap.getD (i-1) 0 ∧ vwap.getD i 0 < closes.getD i 0)) ∧
       ((VWAPCalculator.detect_vwap_breakout closes vwap (i : ℤ)).signal = .bearishBreakdown ↔
         (vwap.getD (i-1) 0 < closes.getD (i-1) 0 ∧ closes.getD i 0 < vwap.getD i 0)) ∧
       (¬ (closes.getD (i-1) 0 < vwap.getD (i-1) 0 ∧ vwap.getD i 0 < closes.getD i 0) →
        ¬ (vwap.getD (i-1) 0 < closes.getD (i-1) 0 ∧ closes.getD i 0 < vwap.getD i 0) →
        (VWAPCalculator.detect_vwap_breakout closes vwap (i : ℤ)).signal =
          (if |(closes.getD i 0 - vwap.getD i 0) / vwap.getD i 0 * 100| < 3 / 10 then
            (if vwap.getD (i-1) 0 < closes.getD (i-1) 0 then VwapSignal.bullishRetest
             else VwapSignal.bearishRetest)
           else VwapSignal.neutral)))) ∧
    (i = 0 →
      (VWAPCalculator.detect_vwap_breakout closes vwap (i : ℤ)).signal =
        (if |(closes.getD 0 0 - vwap.getD 0 0) / vwap.getD 0 0 * 100| < 3 / 10 then
          (if vwap.getD 0 0 < closes.getD 0 0 then VwapSignal.bullishRetest
           else VwapSignal.bearishRetest)
         else VwapSignal.neutral)) := by
  have hne : ¬ (closes.isEmpty ∨ vwap.isEmpty) := by
    rw [List.isEmpty_iff, List.isEmpty_iff]
    push_neg
    exact ⟨List.ne_nil_of_length_pos (by omega), List.ne_nil_of_length_pos (by omega)⟩
  constructor
  · intro h1i
    have hpos : (0 : ℤ) < (i : ℤ) := by omega
    rw [detect_vwap_breakout_signal closes vwap (i : ℤ) hne]
    simp only [if_pos hpos, pyGet_natCast, pyGet_natCast_sub_one closes i h1i,
      pyGet_natCast_sub_one vwap i h1i]
    split_ifs <;> simp_all
    all_goals intros
    all_goals clear hne
    all_goals obtain ⟨a, b⟩ := ‹_ ∧ _›
    all_goals linarith
  · intro h0
    subst h0
    rw [detect_vwap_breakout_signal closes vwap ((0 : Nat) : ℤ) hne]
    have hno : ¬ ((0 : ℤ) < ((0 : Nat) : ℤ)) := by omega
    simp only [if_neg hno, pyGet_natCast]
    rw [if_neg (by rintro ⟨a, b⟩; linarith), if_neg (by rintro ⟨a, b⟩; linarith)]

open VWAPCalculator in
/-- Witness for the amended claim C4: a concrete bullish crossing at index
1 with closes 1 then 2 against a constant VWAP of 3 over 2. -/
theorem detect_vwap_breakout_classification_witness :
    (1 : Nat) < ([1, 2] : List ℚ).length ∧ (1 : Nat) < ([3/2, 3/2] : List ℚ).length ∧
    ((1 ≤ 1 →
      (((VWAPCalculator.detect_vwap_breakout [1, 2] [3/2, 3/2] ((1 : Nat) : ℤ)).signal = .bullishBreakout ↔
         (([1, 2] : List ℚ).getD (1-1) 0 < ([3/2, 3/2] : List ℚ).getD (1-1) 0 ∧
          ([3/2, 3/2] : List ℚ).getD 1 0 < ([1, 2] : List ℚ).getD 1 0)) ∧
       (((VWAPCalculator.detect_vwap_breakout [1, 2] [3/2, 3/2] ((1 : Nat) : ℤ)).signal = .bearishBreakdown ↔
         (([3/2, 3/2] : List ℚ).getD (1-1) 0 < ([1, 2] : List ℚ).getD (1-1) 0 ∧
          ([1, 2] : List ℚ).getD 1 0 < ([3/2, 3/2] : List ℚ).getD 1 0))) ∧
       (¬ (([1, 2] : List ℚ).getD (1-1) 0 < ([3/2, 3/2] : List ℚ).getD (1-1) 0 ∧
           ([3/2, 3/2] : List ℚ).getD 1 0 < ([1, 2] : List ℚ).getD 1 0) →
        ¬ (([3/2, 3/2] : List ℚ).getD (1-1) 0 < ([1, 2] : List ℚ).getD (1-1) 0 ∧
           ([1, 2] : List ℚ).getD 1 0 < ([3/2, 3/2] : List ℚ).getD 1 0) →
        (VWAPCalculator.detect_vwap_breakout [1, 2] [3/2, 3/2] ((1 : Nat) : ℤ)).signal =
          (if |(([1, 2] : List ℚ).getD 1 0 - ([3/2, 3/2] : List ℚ).getD 1 0) /
                ([3/2, 3/2] : List ℚ).getD 1 0 * 100| < 3 / 10 then
            (if ([3/2, 3/2] : List ℚ).getD (1-1) 0 < ([1, 2] : List ℚ).getD (1-1) 0 then
               VwapSignal.bullishRetest
             else VwapSignal.bearishRetest)
           else VwapSignal.neutral)))) ∧
    ((1 : Nat) = 0 →
      (VWAPCalculator.detect_vwap_breakout [1, 2] [3/2, 3/2] ((1 : Nat) : ℤ)).signal =
        (if |(([1, 2] : List ℚ).getD 0 0 - ([3/2, 3/2] : List ℚ).getD 0 0) /
              ([3/2, 3/2] : List ℚ).getD 0 0 * 100| < 3 / 10 then
          (if ([3/2, 3/2] : List ℚ).getD 0 0 < ([1, 2] : List ℚ).getD 0 0 then
             VwapSignal.bullishRetest
           else VwapSignal.bearishRetest)
         else VwapSignal.neutral))) :=
  ⟨by norm_num, by norm_num,
   detect_vwap_breakout_classification [1, 2] [3/2, 3/2] 1 (by norm_num) (by norm_num)⟩

namespace VWAPCalculator

/-- Typical price (high plus low plus close, over 3) at index j, the
indexwise reading of the typical_price array of calculate_vwap. -/
def typicalAt (d : CandleData) (j : Nat) : ℚ :=
  (d.high.getD j 0 + d.low.getD j 0 + d.close.getD j 0) / 3

/-- Indexwise cumulative sum of typical price times volume up to index i,
the reference value of cumulative_tpv at i. -/
def cumTPV (d : CandleData) (i : Nat) : ℚ :=
  ∑ j ∈ Finset.range (i + 1), typicalAt d j * d.volume.getD j 0

/-- Indexwise cumulative volume up to index i, the reference value of
cumulative_volume at i. -/
def cumVol (d : CandleData) (i : Nat) : ℚ :=
  ∑ j ∈ Finset.range (i + 1), d.volume.getD j 0

end VWAPCalculator

/-- Candle data with a single zero-volume bar, for the C5 counterexample. -/
def c5zero : VWAPCalculator.CandleData := ⟨[1], [10], [8], [9], [0]⟩

open VWAPCalculator in
/-- Counterexample to claim C5: on a series whose cumulative volume is
zero, calculate_vwap does not signal InsufficientDataError — no error path
exists in the code — and instead performs the division by zero cumulative
volume, returning a list whose entry is the resulting non-finite value
(modelled none). -/
theorem vwap_zero_volume_counterexample :
    VWAPCalculator.cumVol c5zero 0 = 0 ∧
    VWAPCalculator.calculate_vwap c5zero = .ok [none] ∧
    VWAPCalculator.calculate_vwap c5zero ≠ .error .insufficientData := by
  have hok : VWAPCalculator.calculate_vwap c5zero = .ok [none] := by
    norm_num [VWAPCalculator.calculate_vwap, c5zero, cumsum, cumsumFrom, List.zipWith]
  refine ⟨?_, hok, by rw [hok]; simp⟩
  simp [VWAPCalculator.cumVol, c5zero]

open VWAPCalculator in
/-- Claim C5 as amended: calculate_vwap never signals any error (the code
has no raising path and InsufficientDataError exists nowhere in the
repository); it always returns a list, whose entry at i is the exact
quotient of cumulative typical-price-volume by cumulative volume when the
cumulative volume at i is non-zero, and the non-finite product of a
division by zero (modelled none) when it is zero. -/
theorem calculate_vwap_characterization (d : VWAPCalculator.CandleData) (i : Nat)
    (hts : d.timestamp ≠ [])
    (hh : d.high.length = d.volume.length)
    (hl : d.low.length = d.volume.length)
    (hcl : d.close.length = d.volume.length)
    (hi : i < d.volume.length) :
    (∀ e, VWAPCalculator.calculate_vwap d ≠ .error e) ∧
    ∃ l, VWAPCalculator.calculate_vwap d = .ok l ∧
      l.getD i none = (if VWAPCalculator.cumVol d i = 0 then none
                       else some (VWAPCalculator.cumTPV d i / VWAPCalculator.cumVol d i)) := by
  have h1 : ¬ d.timestamp.isEmpty := by simpa [List.isEmpty_iff] using hts
  constructor
  · intro e
    unfold VWAPCalculator.calculate_vwap
    split <;> simp
  · refine ⟨_, by rw [VWAPCalculator.calculate_vwap, if_neg h1], ?_⟩
    have hlhl : (List.zipWith (· + ·) d.high d.low).length = d.volume.length := by
      simp [hh, hl]
    have hltp : (List.zipWith (fun s c => (s + c) / 3)
        (List.zipWith (· + ·) d.high d.low) d.close).length = d.volume.length := by
      simp [hlhl, hcl]
    have hltpv : (List.zipWith (· * ·)
        (List.zipWith (fun s c => (s + c) / 3) (List.zipWith (· + ·) d.high d.low) d.close)
        d.volume).length = d.volume.length := by
      simp [hltp]
    have hlc1 : (cumsum (List.zipWith (· * ·)
        (List.zipWith (fun s c => (s + c) / 3) (List.zipWith (· + ·) d.high d.low) d.close)
        d.volume)).length = d.volume.length := by
      rw [cumsum_length, hltpv]
    have hlc2 : (cumsum d.volume).length = d.volume.length := cumsum_length _
    have hll : (List.zipWith (fun a b => if b = 0 then none else some (a / b))
        (cumsum (List.zipWith (· * ·)
          (List.zipWith (fun s c => (s + c) / 3) (List.zipWith (· + ·) d.high d.low) d.close)
          d.volume))
        (cumsum d.volume)).length = d.volume.length := by
      simp [hlc1, hlc2]
    rw [List.getD_eq_getElem _ _ (by rw [hll]; exact hi)]
    rw [List.getElem_zipWith]
    rw [← List.getD_eq_getElem (cumsum (List.zipWith (· * ·)
        (List.zipWith (fun s c => (s + c) / 3) (List.zipWith (· + ·) d.high d.low) d.close)
        d.volume)) (0 : ℚ) (by rw [hlc1]; exact hi)]
    rw [← List.getD_eq_getElem (cumsum d.volume) (0 : ℚ) (by rw [hlc2]; exact hi)]
    have hvol : (cumsum d.volume).getD i 0 = VWAPCalculator.cumVol d i := by
      rw [cumsum_getD _ _ hi]
      rfl
    have htpvi : (cumsum (List.zipWith (· * ·)
        (List.zipWith (fun s c => (s + c) / 3) (List.zipWith (· + ·) d.high d.low) d.close)
        d.volume)).getD i 0 = VWAPCalculator.cumTPV d i := by
      rw [cumsum_getD _ i (by rw [hltpv]; exact hi)]
      unfold VWAPCalculator.cumTPV
      refine Finset.sum_congr rfl ?_
      intro k hk
      have hk2 : k < d.volume.length := by
        have := Finset.mem_range.mp hk
        omega
      rw [List.getD_eq_getElem _ _ (by rw [hltpv]; exact hk2)]
      simp only [List.getElem_zipWith]
      unfold VWAPCalculator.typicalAt
      rw [List.getD_eq_getElem d.high _ (by rw [hh]; exact hk2),
          List.getD_eq_getElem d.low _ (by rw [hl]; exact hk2),
          List.getD_eq_getElem d.close _ (by rw [hcl]; exact hk2),
          List.getD_eq_getElem d.volume _ hk2]
    rw [hvol, htpvi]

/-- Candle data with two bars of positive volume, for the C5 witness. -/
def c5data : VWAPCalculator.CandleData := ⟨[1, 2], [10, 12], [8, 9], [9, 10], [2, 3]⟩

open VWAPCalculator in
/-- Witness for the amended claim C5 at a concrete two-bar series with
positive cumulative volume. -/
theorem calculate_vwap_characterization_witness :
    c5data.timestamp ≠ [] ∧
    c5data.high.length = c5data.volume.length ∧
    c5data.low.length = c5data.volume.length ∧
    c5data.close.length = c5data.volume.length ∧
    1 < c5data.volume.length ∧
    ((∀ e, VWAPCalculator.calculate_vwap c5data ≠ .error e) ∧
     ∃ l, VWAPCalculator.calculate_vwap c5data = .ok l ∧
       l.getD 1 none = (if VWAPCalculator.cumVol c5data 1 = 0 then none
                        else some (VWAPCalculator.cumTPV c5data 1 / VWAPCalculator.cumVol c5data 1))) :=
  ⟨by simp [c5data], by simp [c5data], by simp [c5data], by simp [c5data], by simp [c5data],
   calculate_vwap_characterization c5data 1 (by simp [c5data]) (by simp [c5data])
     (by simp [c5data]) (by simp [c5data]) (by simp [c5data])⟩
